import Mathlib

/-!
Verification of the real-time game-room layer of the chess-world backend
(`backend/main.py`): the `GameManager` (room registry, connect/disconnect,
broadcast) and the `/ws/game` websocket receive loop.

The backend delegates chess rules to the external python-chess library.
Following the source's import boundary, the parts of that library whose
behaviour the backend code depends on structurally are embedded concretely
(`chess.Board()`'s starting setup, `Board.fen()` serialization,
`chess.Move.from_uci` parsing), while full legality checking
(`Board.is_legal`) and move application (`Board.push`) are kept as
parameters: no property below depends on their internals, only on the
way `main.py` invokes them.
-/

namespace ChessWorld

/-! ### Pieces and boards (the slice of python-chess that `main.py` uses) -/

/-- A chess piece as in python-chess: a colour (`true` = white, matching
`chess.WHITE = True`) and a piece type (`1` = pawn … `6` = king, matching
`chess.PAWN … chess.KING`). -/
structure Piece where
  color : Bool
  ptype : Nat
deriving DecidableEq, Repr

/-- A chess position, the state carried by `chess.Board`: piece placement
indexed by square `0 = a1 … 63 = h8`, side to move, the four castling
rights, en-passant target square, and the halfmove/fullmove counters. -/
structure Board where
  placement : Nat → Option Piece
  turn : Bool
  castleWK : Bool
  castleWQ : Bool
  castleBK : Bool
  castleBQ : Bool
  ep_square : Option Nat
  halfmove_clock : Nat
  fullmove_number : Nat

/-- Back-rank piece type by file for the standard starting setup. -/
def backRankType (f : Nat) : Nat :=
  if f = 0 ∨ f = 7 then 4
  else if f = 1 ∨ f = 6 then 2
  else if f = 2 ∨ f = 5 then 3
  else if f = 3 then 5
  else 6

/-- The standard starting placement, as set up by `chess.Board()`:
white back rank and pawns on ranks 1–2, black on ranks 7–8. -/
def startingPlacement : Nat → Option Piece := fun sq =>
  if 64 ≤ sq then none
  else
    let r := sq / 8
    let f := sq % 8
    if r = 1 then some ⟨true, 1⟩
    else if r = 6 then some ⟨false, 1⟩
    else if r = 0 then some ⟨true, backRankType f⟩
    else if r = 7 then some ⟨false, backRankType f⟩
    else none

/-- `chess.Board()`: the standard initial chess position. -/
def startingBoard : Board where
  placement := startingPlacement
  turn := true
  castleWK := true
  castleWQ := true
  castleBK := true
  castleBQ := true
  ep_square := none
  halfmove_clock := 0
  fullmove_number := 1

/-- python-chess piece symbols (`chess.PIECE_SYMBOLS[t]` for `t = 1 … 6`). -/
def pieceSymbol (t : Nat) : Char :=
  if t = 1 then 'p'
  else if t = 2 then 'n'
  else if t = 3 then 'b'
  else if t = 4 then 'r'
  else if t = 5 then 'q'
  else 'k'

/-- FEN character of a piece: uppercase symbol for white, lowercase for black. -/
def pieceChar (p : Piece) : Char :=
  if p.color then (pieceSymbol p.ptype).toUpper else pieceSymbol p.ptype

/-- Run-length encode one rank of cells for FEN: runs of empty squares
become a digit, pieces become their symbol. -/
def emitRank (cells : List (Option Piece)) : List Char :=
  let step : List Char × Nat → Option Piece → List Char × Nat := fun acc c =>
    match c with
    | none => (acc.1, acc.2 + 1)
    | some p =>
        (acc.1 ++ (if acc.2 = 0 then [] else [Char.ofNat (48 + acc.2)]) ++ [pieceChar p], 0)
  let res := cells.foldl step ([], 0)
  res.1 ++ (if res.2 = 0 then [] else [Char.ofNat (48 + res.2)])

/-- The cells of rank `r` (0-based), files a through h. -/
def rankCells (pl : Nat → Option Piece) (r : Nat) : List (Option Piece) :=
  (List.range 8).map (fun f => pl (r * 8 + f))

/-- The piece-placement field of FEN: ranks 8 down to 1, separated by `/`. -/
def boardFenStr (pl : Nat → Option Piece) : String :=
  String.intercalate "/" (((List.range 8).reverse).map
    (fun r => String.mk (emitRank (rankCells pl r))))

/-- The castling-rights field of FEN. -/
def castlingStr (b : Board) : String :=
  let s := (if b.castleWK then "K" else "") ++ (if b.castleWQ then "Q" else "")
    ++ (if b.castleBK then "k" else "") ++ (if b.castleBQ then "q" else "")
  if s = "" then "-" else s

/-- Algebraic name of a square index (`0 = a1 … 63 = h8`). -/
def squareName (sq : Nat) : String :=
  String.mk [Char.ofNat (97 + sq % 8), Char.ofNat (49 + sq / 8)]

/-- `Board.fen()`: the full FEN encoding of a position.  (python-chess's
default omits the en-passant square when no legal en-passant capture
exists; here the square is printed whenever set, which agrees on every
position this development evaluates concretely.) -/
def fen (b : Board) : String :=
  boardFenStr b.placement ++ " " ++ (if b.turn then "w" else "b") ++ " "
    ++ castlingStr b ++ " "
    ++ (match b.ep_square with | none => "-" | some sq => squareName sq) ++ " "
    ++ toString b.halfmove_clock ++ " " ++ toString b.fullmove_number

/-- The standard starting FEN, as §8 of the design describes it. -/
def standardStartFen : String :=
  "rnbqkbnr/pppppppp/8/8/8/8/PPPPPPPP/RNBQKBNR w KQkq - 0 1"

/-! ### Moves and UCI parsing (`chess.Move.from_uci`) -/

/-- A move as in python-chess `chess.Move`: origin and destination squares,
optional promotion piece type, optional drop piece type (used by variant
play; a parsed drop is never legal on a standard board). -/
structure Move where
  from_square : Nat
  to_square : Nat
  promotion : Option Nat
  drop : Option Nat
deriving DecidableEq, Repr

/-- `chess.SQUARE_NAMES.index` on a two-character square name. -/
def parseSquare (f r : Char) : Option Nat :=
  if 97 ≤ f.toNat ∧ f.toNat ≤ 104 ∧ 49 ≤ r.toNat ∧ r.toNat ≤ 56 then
    some ((r.toNat - 49) * 8 + (f.toNat - 97))
  else none

/-- `chess.PIECE_SYMBOLS.index` on a one-character piece symbol. -/
def pieceIndex (c : Char) : Option Nat :=
  if c = 'p' then some 1
  else if c = 'n' then some 2
  else if c = 'b' then some 3
  else if c = 'r' then some 4
  else if c = 'q' then some 5
  else if c = 'k' then some 6
  else none

/-- `chess.Move.from_uci` on the character list of the input: `"0000"` is
the null move; a four-character `X@sq` form is a drop; otherwise four or
five characters are origin square, destination square and an optional
promotion symbol, with equal origin and destination rejected.  `none`
models the `InvalidMoveError` (a `ValueError`) that the websocket loop
catches. -/
def parseUciChars : List Char → Option Move
  | ['0', '0', '0', '0'] => some ⟨0, 0, none, none⟩
  | [p, '@', f, r] =>
      match pieceIndex p.toLower, parseSquare f r with
      | some d, some sq => some ⟨sq, sq, none, some d⟩
      | _, _ => none
  | [f1, r1, f2, r2] =>
      match parseSquare f1 r1, parseSquare f2 r2 with
      | some a, some b => if a = b then none else some ⟨a, b, none, none⟩
      | _, _ => none
  | [f1, r1, f2, r2, pr] =>
      match parseSquare f1 r1, parseSquare f2 r2, pieceIndex pr with
      | some a, some b, some p => if a = b then none else some ⟨a, b, some p, none⟩
      | _, _, _ => none
  | _ => none

/-- `chess.Move.from_uci` on a string. -/
def parseUci (uci : String) : Option Move :=
  parseUciChars uci.toList

/-! ### The GameManager (`backend/main.py`, class `GameManager`)

Python dicts keyed by `game_id` are embedded as functions
`String → Option _`; `Conn` is the opaque type of websocket handles.
Operations that can raise `KeyError` in Python return `Option`: a `none`
result marks the raised exception. -/

/-- Pointwise update of a string-keyed map. -/
def updateMap {α : Type} (m : String → Option α) (k : String) (v : Option α) :
    String → Option α :=
  fun q => if q = k then v else m q

/-- The state of `GameManager`: `active_games` maps a game id to its board,
`active_connections` maps a game id to its list of websockets, in the
append order Python's `list.append` produces. -/
structure GameManager (Conn : Type) where
  active_games : String → Option Board
  active_connections : String → Option (List Conn)

/-- `GameManager.__init__`: both dicts empty. -/
def GameManager.init (Conn : Type) : GameManager Conn where
  active_games := fun _ => none
  active_connections := fun _ => none

/-- `GameManager.connect`: if `game_id` is not in `active_games`, store a
fresh `chess.Board()` and an empty connection list for it; then append the
websocket to `active_connections[game_id]`.  The append raises `KeyError`
(here `none`) when that key is absent, which only happens if the two dicts
disagree on `game_id`. -/
def GameManager.connect {Conn : Type} (gm : GameManager Conn) (ws : Conn)
    (game_id : String) : Option (GameManager Conn) :=
  let gm1 : GameManager Conn :=
    if (gm.active_games game_id).isSome then gm
    else
      { active_games := updateMap gm.active_games game_id (some startingBoard)
        active_connections := updateMap gm.active_connections game_id (some []) }
  match gm1.active_connections game_id with
  | none => none
  | some conns =>
      some { gm1 with
        active_connections := updateMap gm1.active_connections game_id (some (conns ++ [ws])) }

/-- `GameManager.disconnect`: if `game_id` has a connection list, remove the
first occurrence of the websocket from it (guarded by a membership test, as
in the source); if the list is then empty, delete both the connection list
and the board.  Deleting the board raises `KeyError` (here `none`) when
`active_games` has no entry for `game_id`. -/
def GameManager.disconnect {Conn : Type} [DecidableEq Conn] (gm : GameManager Conn)
    (ws : Conn) (game_id : String) : Option (GameManager Conn) :=
  match gm.active_connections game_id with
  | none => some gm
  | some conns =>
      let conns1 := if ws ∈ conns then conns.erase ws else conns
      if conns1.length = 0 then
        match gm.active_games game_id with
        | none => none
        | some _ =>
            some { active_games := updateMap gm.active_games game_id none
                   active_connections := updateMap gm.active_connections game_id none }
      else
        some { gm with active_connections := updateMap gm.active_connections game_id (some conns1) }

/-- `GameManager.get_board`: `self.active_games.get(game_id)`. -/
def GameManager.get_board {Conn : Type} (gm : GameManager Conn) (game_id : String) :
    Option Board :=
  gm.active_games game_id

/-- `GameManager.broadcast`: attempt to send `message` to every connection
registered for `game_id`; a send that raises (`fails c = true`, the
connection being closed) is swallowed by the bare `except: pass`.  Returns
the unchanged manager state together with the deliveries that succeeded,
in list order. -/
def GameManager.broadcast {Conn : Type} (gm : GameManager Conn) (game_id : String)
    (message : String) (fails : Conn → Bool) :
    GameManager Conn × List (Conn × String) :=
  match gm.active_connections game_id with
  | none => (gm, [])
  | some conns => (gm, (conns.filter (fun c => !fails c)).map (fun c => (c, message)))

/-! ### The websocket endpoint (`websocket_endpoint` in `backend/main.py`)

The endpoint's effect on manager state and its outbound messages are made
explicit; legality checking and move application stay parameters
`is_legal` and `push`, the two python-chess calls whose internals the
endpoint never inspects. -/

/-- What one iteration of the receive loop did: `noBoard` marks the
unreachable crash of a live session whose board is missing, `errorSent` an
`error:` reply to the sender only, `broadcasted` a fan-out of the new FEN
with the deliveries that succeeded. -/
inductive SessionEvent (Conn : Type) where
  | noBoard : SessionEvent Conn
  | errorSent (c : Conn) (msg : String) : SessionEvent Conn
  | broadcasted (fenMsg : String) (delivered : List (Conn × String)) : SessionEvent Conn

/-- The messages actually sent out by one loop iteration. -/
def SessionEvent.sent {Conn : Type} : SessionEvent Conn → List (Conn × String)
  | .noBoard => []
  | .errorSent c m => [(c, m)]
  | .broadcasted _ d => d

section Endpoint

variable {Conn : Type} (is_legal : Board → Move → Bool) (push : Board → Move → Board)

/-- The body of the `while True` receive loop: parse `data` with
`chess.Move.from_uci` (a `ValueError` answers `error:Invalid UCI format`
to the sender); if the parsed move is legal, push it onto the board and
broadcast the new FEN to the room, otherwise answer `error:Invalid move`
to the sender.  The session's `board` variable aliases the dict entry
`active_games[game_id]`, which for a live session is exactly the stored
board, so the board is read from the manager state. -/
def stepSession (gm : GameManager Conn) (game_id : String) (ws : Conn)
    (data : String) (fails : Conn → Bool) : GameManager Conn × SessionEvent Conn :=
  match gm.active_games game_id with
  | none => (gm, .noBoard)
  | some board =>
      match parseUci data with
      | none => (gm, .errorSent ws ("error:Invalid UCI format " ++ data))
      | some move =>
          if is_legal board move then
            let board1 := push board move
            let gm1 : GameManager Conn :=
              { gm with active_games := updateMap gm.active_games game_id (some board1) }
            let res := gm1.broadcast game_id (fen board1) fails
            (res.1, .broadcasted (fen board1) res.2)
          else (gm, .errorSent ws ("error:Invalid move " ++ data))

/-- The endpoint prologue: `manager.connect`, then
`board = manager.get_board(game_id)` and the initial
`websocket.send_text(board.fen())` to the joining client.  `none` marks
the two impossible crashes (`KeyError` inside connect, `board is None`). -/
def sessionInit (gm : GameManager Conn) (ws : Conn) (game_id : String) :
    Option (GameManager Conn × String) :=
  match gm.connect ws game_id with
  | none => none
  | some gm1 =>
      match gm1.get_board game_id with
      | none => none
      | some board => some (gm1, fen board)

/-- Run the receive loop over a list of inbound messages, collecting the
event of each iteration. -/
def runLoop (gm : GameManager Conn) (game_id : String) (ws : Conn)
    (fails : Conn → Bool) : List String → GameManager Conn × List (SessionEvent Conn)
  | [] => (gm, [])
  | data :: rest =>
      let s := stepSession is_legal push gm game_id ws data fails
      let r := runLoop s.1 game_id ws fails rest
      (r.1, s.2 :: r.2)

/-- The room-level core of one submission (§4.2's `submitMove`): parse,
check legality, apply.  `none` covers both the malformed and the illegal
outcome, each of which leaves the board untouched. -/
def submitMove (board : Board) (data : String) : Option Board :=
  match parseUci data with
  | none => none
  | some move => if is_legal board move then some (push board move) else none

/-- Fold `submitMove` over a list of inputs, collecting the position
produced by each successful submission. -/
def runRoom (board : Board) : List String → Board × List Board
  | [] => (board, [])
  | data :: rest =>
      match submitMove is_legal push board data with
      | none => runRoom board rest
      | some b1 =>
          let r := runRoom b1 rest
          (r.1, b1 :: r.2)

end Endpoint

/-- The FEN strings broadcast during a run, in order. -/
def broadcastFens {Conn : Type} (evs : List (SessionEvent Conn)) : List String :=
  evs.filterMap (fun e => match e with | .broadcasted f _ => some f | _ => none)

/-- Disconnect each handle in the list in turn from the same room. -/
def disconnectAll {Conn : Type} [DecidableEq Conn] (gm : GameManager Conn)
    (game_id : String) : List Conn → Option (GameManager Conn)
  | [] => some gm
  | c :: rest =>
      match gm.disconnect c game_id with
      | none => none
      | some gm1 => disconnectAll gm1 game_id rest

/-- The two dicts of a `GameManager` have the same keys: every game with a
board has a connection list and vice versa. -/
def Inv {Conn : Type} (gm : GameManager Conn) : Prop :=
  ∀ g, (gm.active_games g).isSome ↔ (gm.active_connections g).isSome

/-- Manager states reachable from `GameManager.__init__` by the three
mutating/observing operations. -/
inductive Reachable {Conn : Type} [DecidableEq Conn] : GameManager Conn → Prop where
  | init : Reachable (GameManager.init Conn)
  | connect {gm gm1 : GameManager Conn} {ws : Conn} {gid : String} :
      Reachable gm → gm.connect ws gid = some gm1 → Reachable gm1
  | disconnect {gm gm1 : GameManager Conn} {ws : Conn} {gid : String} :
      Reachable gm → gm.disconnect ws gid = some gm1 → Reachable gm1
  | broadcast {gm : GameManager Conn} {gid msg : String} {fails : Conn → Bool} :
      Reachable gm → Reachable (gm.broadcast gid msg fails).1

/-! ### Concrete states and rules-engine instances used to instantiate
the theorems on closed inputs -/

/-- A small concrete manager state: one room `"r"` at the starting
position with subscribers `1` and `2`. -/
def gmDemo : GameManager Nat where
  active_games := fun g => if g = "r" then some startingBoard else none
  active_connections := fun g => if g = "r" then some [1, 2] else none

/-- A concrete mid-game manager state: room `"r"` with black to move
(some moves have been played) and subscribers `1` and `2`. -/
def gmDemoMid : GameManager Nat where
  active_games := fun g => if g = "r" then some { startingBoard with turn := false } else none
  active_connections := fun g => if g = "r" then some [1, 2] else none

/-- A send-failure pattern for instantiating broadcast: delivery to
connection `1` raises, every other delivery succeeds. -/
def failsOne : Nat → Bool := fun c => c == 1

/-- Trivial legality and application functions, and a no-failure pattern,
for instantiating the rules-engine parameters concretely. -/
def alwaysLegal : Board → Move → Bool := fun _ _ => true

def keepBoard : Board → Move → Board := fun b _ => b

def failsNone : Nat → Bool := fun _ => false

def moveE2E4 : Move := ⟨12, 28, none, none⟩

/-! ### Helper lemmas -/

example : fen startingBoard = standardStartFen := by decide

example : parseUci "e2e4" = some ⟨12, 28, none, none⟩ := by decide
example : parseUci "zz99" = none := by decide
example : parseUci "e7e8q" = some ⟨52, 60, some 5, none⟩ := by decide
example : parseUci "e2e2" = none := by decide
example : parseUci "0000" = some ⟨0, 0, none, none⟩ := by decide

theorem updateMap_same {α : Type} (m : String → Option α) (k : String) (v : Option α) :
    updateMap m k v k = v := by
  simp [updateMap]

theorem updateMap_ne {α : Type} {m : String → Option α} {k q : String} {v : Option α}
    (h : q ≠ k) : updateMap m k v q = m q := by
  simp [updateMap, h]

theorem connect_absent {Conn : Type} (gm : GameManager Conn) (ws : Conn) (gid : String)
    (h : gm.active_games gid = none) :
    gm.connect ws gid =
      some { active_games := updateMap gm.active_games gid (some startingBoard)
             active_connections :=
               updateMap (updateMap gm.active_connections gid (some [])) gid (some [ws]) } := by
  unfold GameManager.connect
  rw [h]
  simp [updateMap_same]

theorem connect_present {Conn : Type} (gm : GameManager Conn) (ws : Conn) (gid : String)
    (b : Board) (conns : List Conn)
    (hg : gm.active_games gid = some b)
    (hc : gm.active_connections gid = some conns) :
    gm.connect ws gid =
      some { gm with active_connections :=
               updateMap gm.active_connections gid (some (conns ++ [ws])) } := by
  unfold GameManager.connect
  rw [hg]
  simp only [Option.isSome_some, if_true]
  rw [hc]

theorem disconnect_no_entry {Conn : Type} [DecidableEq Conn] (gm : GameManager Conn)
    (ws : Conn) (gid : String) (hc : gm.active_connections gid = none) :
    gm.disconnect ws gid = some gm := by
  unfold GameManager.disconnect
  rw [hc]

theorem disconnect_delete {Conn : Type} [DecidableEq Conn] (gm : GameManager Conn)
    (ws : Conn) (gid : String) (conns : List Conn) (b : Board)
    (hc : gm.active_connections gid = some conns)
    (hg : gm.active_games gid = some b)
    (h0 : (if ws ∈ conns then conns.erase ws else conns) = []) :
    gm.disconnect ws gid =
      some { active_games := updateMap gm.active_games gid none
             active_connections := updateMap gm.active_connections gid none } := by
  unfold GameManager.disconnect
  rw [hc]
  simp only [h0, List.length_nil, if_true]
  rw [hg]

theorem disconnect_keep {Conn : Type} [DecidableEq Conn] (gm : GameManager Conn)
    (ws : Conn) (gid : String) (conns conns1 : List Conn)
    (hc : gm.active_connections gid = some conns)
    (h1 : (if ws ∈ conns then conns.erase ws else conns) = conns1)
    (h0 : conns1 ≠ []) :
    gm.disconnect ws gid =
      some { gm with active_connections := updateMap gm.active_connections gid (some conns1) } := by
  unfold GameManager.disconnect
  rw [hc]
  simp only [h1, List.length_eq_zero, h0, if_false]

theorem broadcast_fst {Conn : Type} (gm : GameManager Conn) (gid msg : String)
    (fails : Conn → Bool) : (gm.broadcast gid msg fails).1 = gm := by
  unfold GameManager.broadcast
  cases gm.active_connections gid <;> rfl

theorem inv_init {Conn : Type} : Inv (GameManager.init Conn) := by
  intro g
  constructor <;> intro h <;> simp [GameManager.init] at h

theorem inv_connect {Conn : Type} {gm gm1 : GameManager Conn} {ws : Conn} {gid : String}
    (hinv : Inv gm) (h : gm.connect ws gid = some gm1) : Inv gm1 := by
  cases hg : gm.active_games gid with
  | none =>
      rw [connect_absent gm ws gid hg] at h
      cases h
      intro g
      by_cases hq : g = gid
      · subst hq
        simp [updateMap_same]
      · simp [updateMap_ne hq, hinv g]
  | some b =>
      have hcs : (gm.active_connections gid).isSome := by
        rw [← hinv gid, hg]; rfl
      obtain ⟨conns, hc⟩ := Option.isSome_iff_exists.mp hcs
      rw [connect_present gm ws gid b conns hg hc] at h
      cases h
      intro g
      by_cases hq : g = gid
      · subst hq
        simp [updateMap_same, hg]
      · simp [updateMap_ne hq, hinv g]

theorem inv_disconnect {Conn : Type} [DecidableEq Conn] {gm gm1 : GameManager Conn}
    {ws : Conn} {gid : String}
    (hinv : Inv gm) (h : gm.disconnect ws gid = some gm1) : Inv gm1 := by
  cases hc : gm.active_connections gid with
  | none =>
      rw [disconnect_no_entry gm ws gid hc] at h
      cases h
      exact hinv
  | some conns =>
      have hgs : (gm.active_games gid).isSome := by
        rw [hinv gid, hc]; rfl
      obtain ⟨b, hg⟩ := Option.isSome_iff_exists.mp hgs
      by_cases h0 : (if ws ∈ conns then conns.erase ws else conns) = []
      · rw [disconnect_delete gm ws gid conns b hc hg h0] at h
        cases h
        intro g
        by_cases hq : g = gid
        · subst hq
          simp [updateMap_same]
        · simp [updateMap_ne hq, hinv g]
      · rw [disconnect_keep gm ws gid conns _ hc rfl h0] at h
        cases h
        intro g
        by_cases hq : g = gid
        · subst hq
          simp [updateMap_same, hg]
        · simp [updateMap_ne hq, hinv g]

theorem inv_broadcast {Conn : Type} (gm : GameManager Conn) (gid msg : String)
    (fails : Conn → Bool) (hinv : Inv gm) : Inv (gm.broadcast gid msg fails).1 := by
  rw [broadcast_fst]
  exact hinv

theorem connect_total_of_inv {Conn : Type} (gm : GameManager Conn) (ws : Conn)
    (gid : String) (hinv : Inv gm) : ∃ gm1, gm.connect ws gid = some gm1 := by
  cases hg : gm.active_games gid with
  | none => exact ⟨_, connect_absent gm ws gid hg⟩
  | some b =>
      have hcs : (gm.active_connections gid).isSome := by
        rw [← hinv gid, hg]; rfl
      obtain ⟨conns, hc⟩ := Option.isSome_iff_exists.mp hcs
      exact ⟨_, connect_present gm ws gid b conns hg hc⟩

theorem inv_gmDemo : Inv gmDemo := by
  intro g
  by_cases h : g = "r" <;> simp [gmDemo, h]

theorem inv_gmDemoMid : Inv gmDemoMid := by
  intro g
  by_cases h : g = "r" <;> simp [gmDemoMid, h]

theorem sessionInit_absent {Conn : Type} (gm : GameManager Conn) (ws : Conn) (gid : String)
    (h : gm.active_games gid = none) :
    ∃ gm1, sessionInit gm ws gid = some (gm1, fen startingBoard) ∧
      gm1.active_games gid = some startingBoard ∧
      gm1.active_connections gid = some [ws] ∧
      (∀ g, g ≠ gid → gm1.active_games g = gm.active_games g ∧
        gm1.active_connections g = gm.active_connections g) := by
  refine ⟨{ active_games := updateMap gm.active_games gid (some startingBoard)
            active_connections :=
              updateMap (updateMap gm.active_connections gid (some [])) gid (some [ws]) },
    ?_, ?_, ?_, ?_⟩
  · unfold sessionInit
    rw [connect_absent gm ws gid h]
    simp only [GameManager.get_board, updateMap_same]
  · exact updateMap_same _ _ _
  · exact updateMap_same _ _ _
  · intro g hg
    refine ⟨updateMap_ne hg, ?_⟩
    show updateMap (updateMap gm.active_connections gid (some [])) gid (some [ws]) g
        = gm.active_connections g
    rw [updateMap_ne hg, updateMap_ne hg]

/-! ### The claims -/

/-- C3: for a room identifier not currently present in the registry,
connecting creates a room whose position is the standard initial chess
position, and the first message sent to the joining client is exactly the
standard starting FEN. -/
theorem fresh_room_starts_at_standard_position
    {Conn : Type} (gm : GameManager Conn) (ws : Conn) (gid : String)
    (h : gm.active_games gid = none) :
    ∃ gm1, sessionInit gm ws gid = some (gm1, standardStartFen) ∧
      gm1.active_games gid = some startingBoard := by
  obtain ⟨gm1, hs, hg, -, -⟩ := sessionInit_absent gm ws gid h
  refine ⟨gm1, ?_, hg⟩
  rw [hs]
  have hfen : fen startingBoard = standardStartFen := by decide
  rw [hfen]

theorem fresh_room_starts_at_standard_position_witness :
    (GameManager.init Nat).active_games "abc" = none ∧
    ∃ gm1, sessionInit (GameManager.init Nat) (0 : Nat) "abc" = some (gm1, standardStartFen) ∧
      gm1.active_games "abc" = some startingBoard :=
  ⟨rfl, fresh_room_starts_at_standard_position (GameManager.init Nat) 0 "abc" rfl⟩

/-- C4: `connect` is get-or-create: it keeps the existing board of a known
room, creates a fresh starting board for an unknown one, and rejects no
identifier (on any state whose two dicts agree it always succeeds — there
is no RoomNotFound outcome). -/
theorem connect_get_or_create_never_rejects
    {Conn : Type} (gm : GameManager Conn) (ws : Conn) (gid : String) (hinv : Inv gm) :
    ∃ gm1, gm.connect ws gid = some gm1 ∧
      (∀ b, gm.active_games gid = some b → gm1.active_games gid = some b) ∧
      (gm.active_games gid = none → gm1.active_games gid = some startingBoard) := by
  cases hg : gm.active_games gid with
  | none =>
      refine ⟨_, connect_absent gm ws gid hg, ?_, ?_⟩
      · intro b hb
        cases hb
      · intro _
        exact updateMap_same _ _ _
  | some b =>
      have hcs : (gm.active_connections gid).isSome := by
        rw [← hinv gid, hg]; rfl
      obtain ⟨conns, hc⟩ := Option.isSome_iff_exists.mp hcs
      refine ⟨_, connect_present gm ws gid b conns hg hc, ?_, ?_⟩
      · intro b2 hb2
        cases hb2
        exact hg
      · intro hnone
        cases hnone

theorem connect_get_or_create_never_rejects_witness :
    gmDemo.active_games "r" = some startingBoard ∧
    (∃ gm1, gmDemo.connect 3 "r" = some gm1 ∧ gm1.active_games "r" = some startingBoard) ∧
    (∃ gm2, gmDemo.connect 3 "fresh" = some gm2 ∧
      gm2.active_games "fresh" = some startingBoard) := by
  refine ⟨rfl, ?_, ?_⟩
  · obtain ⟨gm1, h1, h2, -⟩ := connect_get_or_create_never_rejects gmDemo 3 "r" inv_gmDemo
    exact ⟨gm1, h1, h2 startingBoard rfl⟩
  · obtain ⟨gm2, h1, -, h3⟩ := connect_get_or_create_never_rejects gmDemo 3 "fresh" inv_gmDemo
    exact ⟨gm2, h1, h3 rfl⟩

theorem connect_absent_fields {Conn : Type} (gm : GameManager Conn) (ws : Conn)
    (gid : String) (h : gm.active_games gid = none) :
    ∃ gm1, gm.connect ws gid = some gm1 ∧
      gm1.active_games = updateMap gm.active_games gid (some startingBoard) ∧
      gm1.active_connections =
        updateMap (updateMap gm.active_connections gid (some [])) gid (some [ws]) :=
  ⟨_, connect_absent gm ws gid h, rfl, rfl⟩

theorem connect_present_fields {Conn : Type} (gm : GameManager Conn) (ws : Conn)
    (gid : String) (b : Board) (conns : List Conn)
    (hg : gm.active_games gid = some b)
    (hc : gm.active_connections gid = some conns) :
    ∃ gm1, gm.connect ws gid = some gm1 ∧
      gm1.active_games = gm.active_games ∧
      gm1.active_connections = updateMap gm.active_connections gid (some (conns ++ [ws])) :=
  ⟨_, connect_present gm ws gid b conns hg hc, rfl, rfl⟩

theorem disconnect_delete_fields {Conn : Type} [DecidableEq Conn] (gm : GameManager Conn)
    (ws : Conn) (gid : String) (conns : List Conn) (b : Board)
    (hc : gm.active_connections gid = some conns)
    (hg : gm.active_games gid = some b)
    (h0 : (if ws ∈ conns then conns.erase ws else conns) = []) :
    ∃ gm1, gm.disconnect ws gid = some gm1 ∧
      gm1.active_games = updateMap gm.active_games gid none ∧
      gm1.active_connections = updateMap gm.active_connections gid none :=
  ⟨_, disconnect_delete gm ws gid conns b hc hg h0, rfl, rfl⟩

theorem disconnect_keep_fields {Conn : Type} [DecidableEq Conn] (gm : GameManager Conn)
    (ws : Conn) (gid : String) (conns conns1 : List Conn)
    (hc : gm.active_connections gid = some conns)
    (h1 : (if ws ∈ conns then conns.erase ws else conns) = conns1)
    (h0 : conns1 ≠ []) :
    ∃ gm1, gm.disconnect ws gid = some gm1 ∧
      gm1.active_games = gm.active_games ∧
      gm1.active_connections = updateMap gm.active_connections gid (some conns1) :=
  ⟨_, disconnect_keep gm ws gid conns conns1 hc h1 h0, rfl, rfl⟩

theorem connect_preserves_games {Conn : Type} {gm gm2 : GameManager Conn} {ws : Conn}
    {gid : String} (hinv : Inv gm) (hcn : gm.connect ws gid = some gm2) :
    ∀ g, (gm.active_games g).isSome → (gm2.active_games g).isSome := by
  intro g hsome
  cases hg : gm.active_games gid with
  | none =>
      obtain ⟨gm1, he, hfg, -⟩ := connect_absent_fields gm ws gid hg
      rw [he] at hcn
      cases hcn
      rw [hfg]
      by_cases hq : g = gid
      · subst hq
        rw [updateMap_same]
        rfl
      · rw [updateMap_ne hq]
        exact hsome
  | some b =>
      have hcs : (gm.active_connections gid).isSome := by
        rw [← hinv gid, hg]; rfl
      obtain ⟨conns, hc⟩ := Option.isSome_iff_exists.mp hcs
      obtain ⟨gm1, he, hfg, -⟩ := connect_present_fields gm ws gid b conns hg hc
      rw [he] at hcn
      cases hcn
      rw [hfg]
      exact hsome

/-- C5: `disconnect` removes the leaving handle from the room's subscriber
list, and the room (registry entry and board) is destroyed exactly when
that list becomes empty after the removal; a room with remaining
subscribers keeps its board; no other room is touched; and neither
`connect` nor `broadcast` ever destroys a room. -/
theorem disconnect_teardown_iff_empty
    {Conn : Type} [DecidableEq Conn] (gm : GameManager Conn) (ws : Conn) (gid : String)
    (conns : List Conn)
    (hinv : Inv gm)
    (hc : gm.active_connections gid = some conns)
    (hnd : conns.Nodup) :
    ∃ gm1, gm.disconnect ws gid = some gm1 ∧
      (∀ cs, gm1.active_connections gid = some cs → ws ∉ cs) ∧
      ((gm1.active_games gid = none ∧ gm1.active_connections gid = none) ↔
        (if ws ∈ conns then conns.erase ws else conns) = []) ∧
      ((if ws ∈ conns then conns.erase ws else conns) ≠ [] →
        gm1.active_games gid = gm.active_games gid ∧
        gm1.active_connections gid = some (if ws ∈ conns then conns.erase ws else conns)) ∧
      (∀ g, g ≠ gid → gm1.active_games g = gm.active_games g ∧
        gm1.active_connections g = gm.active_connections g) ∧
      (∀ (ws2 : Conn) (gid2 : String) (gm2 : GameManager Conn),
        gm.connect ws2 gid2 = some gm2 →
        ∀ g, (gm.active_games g).isSome → (gm2.active_games g).isSome) ∧
      (∀ (gid2 msg : String) (fails : Conn → Bool), (gm.broadcast gid2 msg fails).1 = gm) := by
  have hgs : (gm.active_games gid).isSome := by
    rw [hinv gid, hc]; rfl
  obtain ⟨b, hg⟩ := Option.isSome_iff_exists.mp hgs
  by_cases h0 : (if ws ∈ conns then conns.erase ws else conns) = []
  · obtain ⟨gm1, he, hfg, hfc⟩ := disconnect_delete_fields gm ws gid conns b hc hg h0
    refine ⟨gm1, he, ?_, ?_, ?_, ?_, ?_, ?_⟩
    · intro cs hcs
      rw [hfc, updateMap_same] at hcs
      cases hcs
    · constructor
      · intro _
        exact h0
      · intro _
        rw [hfg, hfc]
        exact ⟨updateMap_same _ _ _, updateMap_same _ _ _⟩
    · intro hne
      exact absurd h0 hne
    · intro g hq
      rw [hfg, hfc]
      exact ⟨updateMap_ne hq, updateMap_ne hq⟩
    · intro ws2 gid2 gm2 hcn
      exact connect_preserves_games hinv hcn
    · intro gid2 msg fails
      exact broadcast_fst gm gid2 msg fails
  · obtain ⟨gm1, he, hfg, hfc⟩ := disconnect_keep_fields gm ws gid conns _ hc rfl h0
    refine ⟨gm1, he, ?_, ?_, ?_, ?_, ?_, ?_⟩
    · intro cs hcs
      rw [hfc, updateMap_same] at hcs
      cases hcs
      by_cases hmem : ws ∈ conns
      · rw [if_pos hmem]
        exact hnd.not_mem_erase
      · rw [if_neg hmem]
        exact hmem
    · constructor
      · intro hdel
        have h1 := hdel.1
        rw [hfg, hg] at h1
        cases h1
      · intro hempty
        exact absurd hempty h0
    · intro _
      rw [hfg, hfc]
      exact ⟨rfl, updateMap_same _ _ _⟩
    · intro g hq
      rw [hfg, hfc]
      exact ⟨rfl, updateMap_ne hq⟩
    · intro ws2 gid2 gm2 hcn
      exact connect_preserves_games hinv hcn
    · intro gid2 msg fails
      exact broadcast_fst gm gid2 msg fails

theorem disconnect_teardown_iff_empty_witness :
    gmDemo.active_connections "r" = some [1, 2] ∧ List.Nodup [1, 2] ∧
    ∃ gm1, gmDemo.disconnect 1 "r" = some gm1 ∧
      gm1.active_connections "r" = some [2] ∧
      gm1.active_games "r" = some startingBoard := by
  refine ⟨rfl, by decide, ?_⟩
  obtain ⟨gm1, hd, -, -, hkeep, -, -, -⟩ :=
    disconnect_teardown_iff_empty gmDemo 1 "r" [1, 2] inv_gmDemo rfl (by decide)
  have he : (if (1 : Nat) ∈ [1, 2] then [1, 2].erase 1 else [1, 2]) = [2] := by decide
  obtain ⟨hg, hcn⟩ := hkeep (by rw [he]; simp)
  refine ⟨gm1, hd, ?_, ?_⟩
  · rw [hcn, he]
  · rw [hg]; rfl

/-- C7 as stated is refuted: a delivery failure during `broadcast` does
not tear the failing subscriber down.  With room `"r"` holding subscribers
`1` and `2` and the send to `1` raising, the bare `except: pass` swallows
the failure: subscriber `1` stays registered and only `2` receives the
message. -/
theorem broadcast_failure_not_torn_down_cex :
    failsOne 1 = true ∧
    (gmDemo.broadcast "r" "msg" failsOne).1.active_connections "r" = some [1, 2] ∧
    (gmDemo.broadcast "r" "msg" failsOne).2 = [(2, "msg")] := by
  refine ⟨rfl, rfl, rfl⟩

/-- C7 amended: a delivery failure during `broadcast` is silently
swallowed: no error is raised toward the caller (the call always returns),
the manager state — including the failing subscriber's registration — is
left exactly unchanged, and every other registered subscriber still
receives the message: a connection receives it iff it is registered and
its own send does not fail.  Teardown of a dead connection happens only
later, through that session's own receive loop. -/
theorem broadcast_swallows_failure_keeps_others
    {Conn : Type} (gm : GameManager Conn) (gid msg : String) (fails : Conn → Bool) :
    (gm.broadcast gid msg fails).1 = gm ∧
    (∀ conns, gm.active_connections gid = some conns →
      ∀ c, (c, msg) ∈ (gm.broadcast gid msg fails).2 ↔ (c ∈ conns ∧ fails c = false)) := by
  refine ⟨broadcast_fst gm gid msg fails, ?_⟩
  intro conns hc c
  unfold GameManager.broadcast
  rw [hc]
  simp [List.mem_map, List.mem_filter, Bool.not_eq_true']

theorem broadcast_swallows_failure_keeps_others_witness :
    (gmDemo.broadcast "r" "msg" failsOne).1 = gmDemo ∧
    (((2 : Nat), "msg") ∈ (gmDemo.broadcast "r" "msg" failsOne).2 ↔
      ((2 : Nat) ∈ [1, 2] ∧ failsOne 2 = false)) :=
  ⟨(broadcast_swallows_failure_keeps_others gmDemo "r" "msg" failsOne).1,
   (broadcast_swallows_failure_keeps_others gmDemo "r" "msg" failsOne).2 [1, 2] rfl 2⟩

/-- C10: in every manager state reachable from `GameManager.__init__` via
connect, disconnect and broadcast, a game id is a key of `active_games`
iff it is a key of `active_connections`; and each of the three operations
preserves this invariant. -/
theorem manager_dicts_share_keys {Conn : Type} [DecidableEq Conn] :
    (∀ gm : GameManager Conn, Reachable gm → Inv gm) ∧
    (∀ (gm gm1 : GameManager Conn) (ws : Conn) (gid : String),
      Inv gm → gm.connect ws gid = some gm1 → Inv gm1) ∧
    (∀ (gm gm1 : GameManager Conn) (ws : Conn) (gid : String),
      Inv gm → gm.disconnect ws gid = some gm1 → Inv gm1) ∧
    (∀ (gm : GameManager Conn) (gid msg : String) (fails : Conn → Bool),
      Inv gm → Inv (gm.broadcast gid msg fails).1) := by
  refine ⟨?_, fun gm gm1 ws gid hi h => inv_connect hi h,
    fun gm gm1 ws gid hi h => inv_disconnect hi h,
    fun gm gid msg fails hi => inv_broadcast gm gid msg fails hi⟩
  intro gm hr
  induction hr with
  | init => exact inv_init
  | connect _ h ih => exact inv_connect ih h
  | disconnect _ h ih => exact inv_disconnect ih h
  | broadcast _ ih => exact inv_broadcast _ _ _ _ ih

theorem manager_dicts_share_keys_witness :
    ((GameManager.init Nat).active_games "g").isSome
      ↔ ((GameManager.init Nat).active_connections "g").isSome :=
  ((@manager_dicts_share_keys Nat _).1 (GameManager.init Nat) Reachable.init) "g"

theorem broadcast_snd_congr {Conn : Type} (gm1 gm2 : GameManager Conn) (gid msg : String)
    (fails : Conn → Bool) (h : gm1.active_connections = gm2.active_connections) :
    (gm1.broadcast gid msg fails).2 = (gm2.broadcast gid msg fails).2 := by
  unfold GameManager.broadcast
  rw [h]
  cases gm2.active_connections gid <;> rfl

theorem stepSession_malformed {Conn : Type} (is_legal : Board → Move → Bool)
    (push : Board → Move → Board) (gm : GameManager Conn) (gid : String) (ws : Conn)
    (data : String) (fails : Conn → Bool) (board : Board)
    (hb : gm.active_games gid = some board)
    (hp : parseUci data = none) :
    stepSession is_legal push gm gid ws data fails =
      (gm, SessionEvent.errorSent ws ("error:Invalid UCI format " ++ data)) := by
  unfold stepSession
  rw [hb, hp]

theorem stepSession_illegal {Conn : Type} (is_legal : Board → Move → Bool)
    (push : Board → Move → Board) (gm : GameManager Conn) (gid : String) (ws : Conn)
    (data : String) (fails : Conn → Bool) (board : Board) (move : Move)
    (hb : gm.active_games gid = some board)
    (hp : parseUci data = some move)
    (hl : is_legal board move = false) :
    stepSession is_legal push gm gid ws data fails =
      (gm, SessionEvent.errorSent ws ("error:Invalid move " ++ data)) := by
  unfold stepSession
  rw [hb, hp]
  simp only [hl, Bool.false_eq_true, if_false]

theorem stepSession_legal {Conn : Type} (is_legal : Board → Move → Bool)
    (push : Board → Move → Board) (gm : GameManager Conn) (gid : String) (ws : Conn)
    (data : String) (fails : Conn → Bool) (board : Board) (move : Move)
    (hb : gm.active_games gid = some board)
    (hp : parseUci data = some move)
    (hl : is_legal board move = true) :
    stepSession is_legal push gm gid ws data fails =
      ({ gm with active_games := updateMap gm.active_games gid (some (push board move)) },
        SessionEvent.broadcasted (fen (push board move))
          ((gm.broadcast gid (fen (push board move)) fails).2)) := by
  unfold stepSession
  rw [hb, hp]
  simp only [hl, if_true]
  refine Prod.ext (broadcast_fst _ _ _ _) ?_
  dsimp only
  exact congrArg (SessionEvent.broadcasted (fen (push board move)))
    (broadcast_snd_congr _ gm gid (fen (push board move)) fails rfl)

/-- C1: a legal submitted move updates the room's board to exactly the
result of applying that one move, leaves every other room and all
subscriber lists untouched, and the FEN of the new position is broadcast
to the room — every registered subscriber whose own send does not fail
receives it. -/
theorem legal_move_applies_and_broadcasts
    {Conn : Type} (is_legal : Board → Move → Bool) (push : Board → Move → Board)
    (gm : GameManager Conn) (gid : String) (ws : Conn) (data : String)
    (fails : Conn → Bool) (board : Board) (move : Move) (conns : List Conn)
    (hb : gm.active_games gid = some board)
    (hp : parseUci data = some move)
    (hl : is_legal board move = true)
    (hc : gm.active_connections gid = some conns) :
    (stepSession is_legal push gm gid ws data fails).1.active_games gid
        = some (push board move) ∧
    (stepSession is_legal push gm gid ws data fails).1.active_connections
        = gm.active_connections ∧
    (∀ g, g ≠ gid → (stepSession is_legal push gm gid ws data fails).1.active_games g
        = gm.active_games g) ∧
    (stepSession is_legal push gm gid ws data fails).2
        = SessionEvent.broadcasted (fen (push board move))
            ((conns.filter (fun c => !fails c)).map (fun c => (c, fen (push board move)))) ∧
    (∀ c, c ∈ conns → fails c = false →
      (c, fen (push board move)) ∈ (stepSession is_legal push gm gid ws data fails).2.sent) := by
  have h2 : (gm.broadcast gid (fen (push board move)) fails).2
      = (conns.filter (fun c => !fails c)).map (fun c => (c, fen (push board move))) := by
    unfold GameManager.broadcast
    rw [hc]
  rw [stepSession_legal is_legal push gm gid ws data fails board move hb hp hl]
  refine ⟨updateMap_same _ _ _, rfl, fun g hq => updateMap_ne hq, ?_, ?_⟩
  · show SessionEvent.broadcasted (fen (push board move))
        ((gm.broadcast gid (fen (push board move)) fails).2) = _
    rw [h2]
  · intro c hcm hcf
    show (c, fen (push board move)) ∈ (SessionEvent.broadcasted (fen (push board move))
        ((gm.broadcast gid (fen (push board move)) fails).2)).sent
    simp only [SessionEvent.sent, h2, List.mem_map, List.mem_filter]
    exact ⟨c, ⟨hcm, by simp [hcf]⟩, rfl⟩

theorem legal_move_applies_and_broadcasts_witness :
    gmDemo.active_games "r" = some startingBoard ∧
    parseUci "e2e4" = some moveE2E4 ∧
    alwaysLegal startingBoard moveE2E4 = true ∧
    (stepSession alwaysLegal keepBoard gmDemo "r" 1 "e2e4" failsNone).1.active_games "r"
      = some (keepBoard startingBoard moveE2E4) :=
  ⟨rfl, by decide, rfl,
    (legal_move_applies_and_broadcasts alwaysLegal keepBoard gmDemo "r" 1 "e2e4" failsNone
      startingBoard moveE2E4 [1, 2] rfl (by decide) rfl rfl).1⟩

/-- C2: an input that fails to parse, or parses but is illegal, leaves the
manager state exactly unchanged, produces a single `error:`-prefixed reply
(carrying the offending raw input) to the originating session only —
nothing is broadcast — and the session stays usable: any later message is
processed exactly as it would have been before this one. -/
theorem rejected_input_leaves_room_unchanged
    {Conn : Type} (is_legal : Board → Move → Bool) (push : Board → Move → Board)
    (gm : GameManager Conn) (gid : String) (ws : Conn) (data : String)
    (fails : Conn → Bool) (board : Board)
    (hb : gm.active_games gid = some board)
    (hrej : parseUci data = none ∨
      ∃ move, parseUci data = some move ∧ is_legal board move = false) :
    (stepSession is_legal push gm gid ws data fails).1 = gm ∧
    ((stepSession is_legal push gm gid ws data fails).2
        = SessionEvent.errorSent ws ("error:Invalid UCI format " ++ data) ∨
     (stepSession is_legal push gm gid ws data fails).2
        = SessionEvent.errorSent ws ("error:Invalid move " ++ data)) ∧
    (∀ data2, stepSession is_legal push (stepSession is_legal push gm gid ws data fails).1
        gid ws data2 fails = stepSession is_legal push gm gid ws data2 fails) := by
  rcases hrej with hp | ⟨move, hp, hl⟩
  · rw [stepSession_malformed is_legal push gm gid ws data fails board hb hp]
    exact ⟨rfl, Or.inl rfl, fun data2 => rfl⟩
  · rw [stepSession_illegal is_legal push gm gid ws data fails board move hb hp hl]
    exact ⟨rfl, Or.inr rfl, fun data2 => rfl⟩

theorem rejected_input_leaves_room_unchanged_witness :
    gmDemo.active_games "r" = some startingBoard ∧
    parseUci "zz99" = none ∧
    (stepSession alwaysLegal keepBoard gmDemo "r" 1 "zz99" failsNone).1 = gmDemo :=
  ⟨rfl, by decide,
    (rejected_input_leaves_room_unchanged alwaysLegal keepBoard gmDemo "r" 1 "zz99" failsNone
      startingBoard rfl (Or.inl (by decide))).1⟩

/-- C8: over any sequence of inbound messages on one room, the board ends
at the fold of the successful submissions, the sequence of FEN strings
broadcast equals in order the FEN encodings of the positions the
successful submissions produce, and each successive position follows from
the previous one by the application of exactly one move accepted as
legal — the board is never changed in any other way. -/
theorem loop_broadcast_sequence_matches_moves
    {Conn : Type} (is_legal : Board → Move → Bool) (push : Board → Move → Board)
    (gm : GameManager Conn) (gid : String) (ws : Conn) (fails : Conn → Bool)
    (board : Board) (inputs : List String)
    (hb : gm.active_games gid = some board) :
    (runLoop is_legal push gm gid ws fails inputs).1.active_games gid
        = some (runRoom is_legal push board inputs).1 ∧
    broadcastFens (runLoop is_legal push gm gid ws fails inputs).2
        = (runRoom is_legal push board inputs).2.map fen ∧
    List.Chain' (fun p q => ∃ m, is_legal p m = true ∧ q = push p m)
      (board :: (runRoom is_legal push board inputs).2) := by
  induction inputs generalizing gm board with
  | nil =>
      exact ⟨hb, rfl, List.chain'_singleton board⟩
  | cons data rest ih =>
      cases hp : parseUci data with
      | none =>
          have hs := stepSession_malformed is_legal push gm gid ws data fails board hb hp
          have hsub : submitMove is_legal push board data = none := by
            unfold submitMove
            rw [hp]
          obtain ⟨ih1, ih2, ih3⟩ := ih gm board hb
          simp only [runLoop, runRoom, hs, hsub]
          exact ⟨ih1, ih2, ih3⟩
      | some move =>
          cases hl : is_legal board move with
          | false =>
              have hs := stepSession_illegal is_legal push gm gid ws data fails board move
                hb hp hl
              have hsub : submitMove is_legal push board data = none := by
                unfold submitMove
                rw [hp]
                simp only [hl, Bool.false_eq_true, if_false]
              obtain ⟨ih1, ih2, ih3⟩ := ih gm board hb
              simp only [runLoop, runRoom, hs, hsub]
              exact ⟨ih1, ih2, ih3⟩
          | true =>
              have hs := stepSession_legal is_legal push gm gid ws data fails board move
                hb hp hl
              have hsub : submitMove is_legal push board data = some (push board move) := by
                unfold submitMove
                rw [hp]
                simp only [hl, if_true]
              obtain ⟨ih1, ih2, ih3⟩ := ih
                { gm with active_games := updateMap gm.active_games gid (some (push board move)) }
                (push board move) (updateMap_same _ _ _)
              simp only [runLoop, runRoom, hs, hsub, broadcastFens, List.filterMap_cons,
                List.map_cons]
              refine ⟨ih1, ?_, List.chain'_cons.mpr ⟨⟨move, hl, rfl⟩, ih3⟩⟩
              simp only [broadcastFens] at ih2
              rw [ih2]

theorem loop_broadcast_sequence_matches_moves_witness :
    gmDemo.active_games "r" = some startingBoard ∧
    broadcastFens (runLoop alwaysLegal keepBoard gmDemo "r" 1 failsNone ["e2e4", "zz99"]).2
      = (runRoom alwaysLegal keepBoard startingBoard ["e2e4", "zz99"]).2.map fen :=
  ⟨rfl, (loop_broadcast_sequence_matches_moves alwaysLegal keepBoard gmDemo "r" 1 failsNone
    startingBoard ["e2e4", "zz99"] rfl).2.1⟩

theorem disconnectAll_empties {Conn : Type} [DecidableEq Conn] (gid : String)
    (conns : List Conn) :
    ∀ (gm : GameManager Conn) (b : Board),
      gm.active_games gid = some b →
      gm.active_connections gid = some conns →
      conns ≠ [] → conns.Nodup →
      ∃ gm1, disconnectAll gm gid conns = some gm1 ∧
        gm1.active_games gid = none ∧ gm1.active_connections gid = none := by
  induction conns with
  | nil =>
      intro gm b hg hc hne hnd
      exact absurd rfl hne
  | cons c rest ih =>
      intro gm b hg hc hne hnd
      by_cases hr : rest = []
      · subst hr
        have h0 : (if c ∈ [c] then [c].erase c else [c]) = [] := by simp
        obtain ⟨gm1, he, hfg, hfc⟩ := disconnect_delete_fields gm c gid [c] b hc hg h0
        refine ⟨gm1, ?_, ?_, ?_⟩
        · unfold disconnectAll
          rw [he]
          rfl
        · rw [hfg]
          exact updateMap_same _ _ _
        · rw [hfc]
          exact updateMap_same _ _ _
      · have hmem : c ∈ c :: rest := List.mem_cons_self c rest
        have h1 : (if c ∈ c :: rest then (c :: rest).erase c else c :: rest) = rest := by
          rw [if_pos hmem, List.erase_cons_head]
        obtain ⟨gm1, he, hfg, hfc⟩ := disconnect_keep_fields gm c gid (c :: rest) rest hc h1 hr
        have hg1 : gm1.active_games gid = some b := by
          rw [hfg]
          exact hg
        have hc1 : gm1.active_connections gid = some rest := by
          rw [hfc]
          exact updateMap_same _ _ _
        obtain ⟨gm2, he2, hn1, hn2⟩ := ih gm1 b hg1 hc1 hr hnd.of_cons
        refine ⟨gm2, ?_, hn1, hn2⟩
        unfold disconnectAll
        rw [he]
        exact he2

/-- C6: after every subscriber of a room has disconnected, the room is
gone, and a client that then connects with the same room id gets a fresh
room at the standard starting position and is sent the standard starting
FEN — no position of the prior game survives the teardown. -/
theorem teardown_then_rejoin_gets_fresh_room
    {Conn : Type} [DecidableEq Conn] (gm : GameManager Conn) (gid : String)
    (conns : List Conn) (ws : Conn)
    (hinv : Inv gm)
    (hc : gm.active_connections gid = some conns)
    (hne : conns ≠ [])
    (hnd : conns.Nodup) :
    ∃ gm1, disconnectAll gm gid conns = some gm1 ∧
      gm1.active_games gid = none ∧
      ∃ gm2, sessionInit gm1 ws gid = some (gm2, standardStartFen) ∧
        gm2.active_games gid = some startingBoard := by
  have hgs : (gm.active_games gid).isSome := by
    rw [hinv gid, hc]; rfl
  obtain ⟨b, hg⟩ := Option.isSome_iff_exists.mp hgs
  obtain ⟨gm1, he, hn1, hn2⟩ := disconnectAll_empties gid conns gm b hg hc hne hnd
  obtain ⟨gm2, hs, hg2, -, -⟩ := sessionInit_absent gm1 ws gid hn1
  refine ⟨gm1, he, hn1, gm2, ?_, hg2⟩
  rw [hs]
  have hfen : fen startingBoard = standardStartFen := by decide
  rw [hfen]

theorem teardown_then_rejoin_gets_fresh_room_witness :
    gmDemoMid.active_games "r" = some { startingBoard with turn := false } ∧
    gmDemoMid.active_connections "r" = some [1, 2] ∧
    ∃ gm1, disconnectAll gmDemoMid "r" [1, 2] = some gm1 ∧
      gm1.active_games "r" = none ∧
      ∃ gm2, sessionInit gm1 9 "r" = some (gm2, standardStartFen) ∧
        gm2.active_games "r" = some startingBoard := by
  refine ⟨rfl, rfl, ?_⟩
  exact teardown_then_rejoin_gets_fresh_room gmDemoMid "r" [1, 2] 9 inv_gmDemoMid rfl
    (by simp) (by decide)

end ChessWorld
